import Mathlib

/-!
# gollama: the conversation loop and the streaming client of `main.go`

A shallow embedding of `main.go` (functions `main`, `streamChatToOllama`,
`trimNewline`) and the properties of the transcript, of the streamed reply
and of input trimming proved about it.

Modelling conventions.

* A Go `string` or `[]byte` is a finite sequence of bytes: `GoString`.
* Library calls whose outcome is decided outside the program
  (`json.Marshal`, `http.NewRequest`, `client.Do`, `json.Unmarshal`,
  `reader.ReadString`, the `bufio.Scanner` over the response body,
  `io.ReadAll`) are inputs of the model: `World`, `Body`, `Turn`.
* Output and library calls are recorded, in program order, as a list of
  `Event`s.
* A library `error` value is represented by its `Error()` text.
-/

namespace Gollama

/-! ## Data model -/

/-- A Go `string` (or `[]byte`): a finite sequence of bytes. -/
abbrev GoString := List UInt8

/-- The bytes of a string literal of the source file (Go source is UTF-8). -/
def str (s : String) : GoString := s.data.flatMap String.utf8EncodeChar

/-- The constant `ollamaChatAPI`. -/
def ollamaChatAPI : GoString := str "http://localhost:11434/api/chat"

/-- The struct `ChatMessage`. -/
structure ChatMessage where
  Role : GoString
  Content : GoString
deriving DecidableEq

/-- The struct `OllamaChatRequest`. -/
structure OllamaChatRequest where
  Model : GoString
  Messages : List ChatMessage
  Stream : Bool
deriving DecidableEq

/-- The struct `OllamaChatResponse`. -/
structure OllamaChatResponse where
  Model : GoString
  CreatedAt : GoString
  Message : ChatMessage
  Done : Bool
deriving DecidableEq

/-! ## `trimNewline` -/

/-- The function `trimNewline`: `s[len(s)-1]` is `s.get? (s.length - 1)`,
`s[:len(s)-1]` is `s.take (s.length - 1)`; `0x0A` is the byte `\n` and `0x0D`
the byte `\r`. -/
def trimNewline (s : GoString) : GoString :=
  let s := if s.length > 0 ∧ s.get? (s.length - 1) = some 0x0A then s.take (s.length - 1) else s
  let s := if s.length > 0 ∧ s.get? (s.length - 1) = some 0x0D then s.take (s.length - 1) else s
  s

/-! ## The outside world -/

/-- An `*http.Request` as far as the program builds it. -/
structure Request where
  Method : GoString
  URL : GoString
  Header : List (GoString × GoString)
  Body : GoString
deriving DecidableEq

/-- The method `req.Header.Set(key, value)`: the value replaces whatever the
key held. -/
def headerSet (h : List (GoString × GoString)) (key value : GoString) :
    List (GoString × GoString) :=
  (key, value) :: h.filter (fun kv => kv.1 ≠ key)

/-- One successful `scanner.Scan()`: the line it delivers (`scanner.Bytes()`)
and what `scanner.Err()` reports once this line has been delivered (`none` is
`nil`). -/
structure Token where
  line : GoString
  err : Option GoString
deriving DecidableEq

/-- The response body `resp.Body` as the program can observe it: through
`io.ReadAll`, which returns the bytes `readAll` it could read and the error
`readAllErr`, or through a `bufio.Scanner` delivering `tokens` one per
`Scan()` and then returning false, after which `scanner.Err()` reports
`endErr`. -/
structure Body where
  readAll : GoString
  readAllErr : Option GoString
  tokens : List Token
  endErr : Option GoString
deriving DecidableEq

/-- An `*http.Response`: the fields the program reads. -/
structure Response where
  StatusCode : Int
  Status : GoString
  Body : Body
deriving DecidableEq

/-- The library calls of one `streamChatToOllama` call, as functions of their
arguments: `json.Marshal`, `http.NewRequest`, `client.Do` and
`json.Unmarshal` into a fresh `OllamaChatResponse`. -/
structure World where
  Marshal : OllamaChatRequest → Except GoString GoString
  NewRequest : GoString → GoString → GoString → Except GoString Request
  Do : Request → Except GoString Response
  Unmarshal : GoString → Except GoString OllamaChatResponse

/-- What the program does that is visible from outside, in program order. -/
inductive Event where
  /-- Entry into `streamChatToOllama(modelName, messages)`. -/
  | Call (modelName : GoString) (messages : List ChatMessage)
  /-- Text written to standard output by `fmt.Print`, `fmt.Println`, `fmt.Printf`. -/
  | Print (s : GoString)
  /-- A message handed to `log.Printf` (without the timestamp). -/
  | Log (s : GoString)
  /-- The HTTP request issued by `client.Do(req)`. -/
  | Do (req : Request)
  /-- The call `io.ReadAll(resp.Body)`. -/
  | ReadAll
  /-- The call `json.Unmarshal(line, &ollamaResp)`. -/
  | Unmarshal (line : GoString)
  /-- The deferred `resp.Body.Close()`. -/
  | Close
deriving DecidableEq

/-! ## `streamChatToOllama` -/

/-- The `error` values `streamChatToOllama` returns, one constructor per
`fmt.Errorf` site, holding the texts substituted into the format. -/
inductive ChatError where
  | marshal (cause : GoString)
  | newRequest (cause : GoString)
  | send (cause : GoString)
  | status (st body : GoString)
  | stream (cause : GoString)
deriving DecidableEq

/-- The method `Error()` of the errors built by `fmt.Errorf`. -/
def ChatError.Error : ChatError → GoString
  | .marshal cause => str "error marshalling JSON: " ++ cause
  | .newRequest cause => str "error creating HTTP request: " ++ cause
  | .send cause => str "error sending request to Ollama: " ++ cause
  | .status st body =>
      str "received non-OK HTTP status: " ++ st ++ str ", body: " ++ body
  | .stream cause => str "error reading response stream: " ++ cause

/-- The state of the scan loop when it is left: the contents of the builder
`fullResponse`, the value of `scanner.Err()`, and the events so far. -/
structure ScanState where
  fullResponse : GoString
  scanErr : Option GoString
  events : List Event
deriving DecidableEq

/-- The loop `for scanner.Scan() { ... }` of `streamChatToOllama`, over the
tokens the scanner still has to deliver; `fullResponse` and `events` are the
builder and the events so far. -/
def scanLoop (Unmarshal : GoString → Except GoString OllamaChatResponse) :
    List Token → Option GoString → GoString → List Event → ScanState
  | [], endErr, fullResponse, events => ⟨fullResponse, endErr, events⟩
  | tok :: rest, endErr, fullResponse, events =>
    if tok.line.length = 0 then
      scanLoop Unmarshal rest endErr fullResponse events
    else
      match Unmarshal tok.line with
      | .error err =>
        scanLoop Unmarshal rest endErr fullResponse
          (events ++ [.Unmarshal tok.line,
            .Log (str "Could not unmarshal line: " ++ tok.line ++ str ", error: " ++ err)])
      | .ok ollamaResp =>
        let events := events ++ [.Unmarshal tok.line, .Print ollamaResp.Message.Content]
        let fullResponse := fullResponse ++ ollamaResp.Message.Content
        if ollamaResp.Done then
          ⟨fullResponse, tok.err, events⟩
        else
          scanLoop Unmarshal rest endErr fullResponse events

/-- The pair `(string, error)` returned by `streamChatToOllama`, with the
events of the call. -/
structure ChatResult where
  text : GoString
  err : Option ChatError
  events : List Event
deriving DecidableEq

/-- The function `streamChatToOllama`. -/
def streamChatToOllama (w : World) (modelName : GoString) (messages : List ChatMessage) :
    ChatResult :=
  let requestData : OllamaChatRequest := ⟨modelName, messages, true⟩
  let events := [Event.Call modelName messages]
  match w.Marshal requestData with
  | .error err => ⟨[], some (.marshal err), events⟩
  | .ok jsonData =>
    match w.NewRequest (str "POST") ollamaChatAPI jsonData with
    | .error err => ⟨[], some (.newRequest err), events⟩
    | .ok req =>
      let req : Request :=
        { req with Header := headerSet req.Header (str "Content-Type") (str "application/json") }
      let events := events ++ [.Do req]
      match w.Do req with
      | .error err => ⟨[], some (.send err), events⟩
      | .ok resp =>
        if resp.StatusCode ≠ 200 then
          let (bodyBytes, _) := (resp.Body.readAll, resp.Body.readAllErr)
          ⟨[], some (.status resp.Status bodyBytes), events ++ [.ReadAll, .Close]⟩
        else
          let st := scanLoop w.Unmarshal resp.Body.tokens resp.Body.endErr [] events
          match st.scanErr with
          | some err => ⟨[], some (.stream err), st.events ++ [.Close]⟩
          | none => ⟨st.fullResponse, none, st.events ++ [.Close]⟩

/-! ## `main` -/

/-- How an iteration of the `for` loop of `main` ends: `next` is `continue`
or the end of the body, `stop` is `break`. -/
inductive Flow where
  | next
  | stop
deriving DecidableEq

/-- The inputs of one iteration: the pair returned by
`reader.ReadString(\n)` and the world a call made in it meets. -/
structure Turn where
  line : GoString
  readErr : Option GoString
  world : World

/-- The outcome of one iteration. -/
structure IterResult where
  flow : Flow
  conversationHistory : List ChatMessage
  events : List Event
deriving DecidableEq

/-- The body of the `for` loop of `main`. -/
def iteration (modelName : GoString) (t : Turn) (conversationHistory : List ChatMessage) :
    IterResult :=
  let events := [Event.Print (str "You: ")]
  match t.readErr with
  | some err =>
    ⟨.next, conversationHistory, events ++ [.Log (str "Error reading user input: " ++ err)]⟩
  | none =>
    let userInput := trimNewline t.line
    if userInput = str "exit" ∨ userInput = str "quit" then
      ⟨.stop, conversationHistory, events ++ [.Print (str "\nBot: Goodbye!\n")]⟩
    else
      let conversationHistory := conversationHistory ++ [⟨str "user", userInput⟩]
      let events := events ++ [.Print (str "Bot: ")]
      let r := streamChatToOllama t.world modelName conversationHistory
      let events := events ++ r.events
      match r.err with
      | some err =>
        let events := events ++
          [.Log (str "Error getting response from Ollama: " ++ err.Error),
           .Print (str "\nSorry, I encountered an error. Please check the console.\n")]
        let conversationHistory :=
          if conversationHistory.length > 0 then
            conversationHistory.take (conversationHistory.length - 1)
          else conversationHistory
        ⟨.next, conversationHistory, events⟩
      | none =>
        ⟨.next, conversationHistory ++ [⟨str "assistant", r.text⟩],
          events ++ [.Print (str "\n")]⟩

/-- The state of `main` after some iterations: the transcript, the events so
far and whether the loop has been left by `break`. -/
structure MainState where
  conversationHistory : List ChatMessage
  events : List Event
  exited : Bool
deriving DecidableEq

/-- The `for` loop of `main` run on the inputs of finitely many iterations;
the inputs after a `break` are not consumed. -/
def loop (modelName : GoString) : List Turn → List ChatMessage → List Event → MainState
  | [], conversationHistory, events => ⟨conversationHistory, events, false⟩
  | t :: ts, conversationHistory, events =>
    let r := iteration modelName t conversationHistory
    match r.flow with
    | .stop => ⟨r.conversationHistory, events ++ r.events, true⟩
    | .next => loop modelName ts r.conversationHistory (events ++ r.events)

/-- The function `main`, with the value of the flag `-model` and the inputs
of its first iterations. -/
def main (modelName : GoString) (turns : List Turn) : MainState :=
  let rule := str "------------------------------------------------------------------\n"
  loop modelName turns []
    [.Print rule,
     .Print (str "Starting chatbot with model: " ++ modelName ++
       str ". Type \x27exit\x27 or \x27quit\x27 to end.\n"),
     .Print rule]

/-! ## Vocabulary of the properties -/

/-- The fragment a line parses to, if `json.Unmarshal` accepts the line. -/
def parse (U : GoString → Except GoString OllamaChatResponse) (line : GoString) :
    Option OllamaChatResponse :=
  match U line with
  | .ok f => some f
  | .error _ => none

/-- The fragments of a list of lines, in order: those of the lines that are
not zero-length and that parse. -/
def fragments (U : GoString → Except GoString OllamaChatResponse) (lines : List GoString) :
    List OllamaChatResponse :=
  (lines.filter (fun l => l ≠ [])).filterMap (parse U)

/-- The fragments up to and including the first one whose `Done` is true, or
all of them if there is none. -/
def upToDone : List OllamaChatResponse → List OllamaChatResponse
  | [] => []
  | f :: fs => if f.Done then [f] else f :: upToDone fs

/-- The concatenation, in order, of `message.content` of the fragments. -/
def contents (fs : List OllamaChatResponse) : GoString :=
  (fs.map (fun f => f.Message.Content)).flatten

/-- Whether a delivered line ends the reading: it is not zero-length and it
parses to a fragment whose `Done` is true. -/
def isDoneLine (U : GoString → Except GoString OllamaChatResponse) (t : Token) : Bool :=
  decide (t.line ≠ []) &&
    (match U t.line with
     | .ok f => f.Done
     | .error _ => false)

/-- The scanner fault the read meets (`none` if it meets none): the lines are
read up to the first one that ends the reading, and the fault is what
`scanner.Err()` reports once that line has been delivered; if no line ends
the reading, all lines are read and the fault is what the scanner reports at
the end of the stream. What the stream holds after the line that ends the
reading is not read. -/
def readFault (U : GoString → Except GoString OllamaChatResponse) (toks : List Token)
    (endErr : Option GoString) : Option GoString :=
  match toks.find? (isDoneLine U) with
  | some d => d.err
  | none => endErr

/-- The text written to standard output during the events. -/
def stdout : List Event → GoString
  | [] => []
  | .Print s :: rest => s ++ stdout rest
  | _ :: rest => stdout rest

/-- Whether an event is an entry into `streamChatToOllama`. -/
def Event.isCall : Event → Bool
  | .Call _ _ => true
  | _ => false

/-- The world `w` in which `client.Do` succeeds with the response `resp`. -/
def World.respond (w : World) (resp : Response) : World :=
  { w with Do := fun _ => .ok resp }

/-- Whether the iteration on `t` from the transcript `h` is a successful
turn: the line is read, it is not an exit keyword and the call returns no
error. -/
def turnSucceeds (modelName : GoString) (t : Turn) (h : List ChatMessage) : Bool :=
  t.readErr.isNone &&
  !(decide (trimNewline t.line = str "exit") || decide (trimNewline t.line = str "quit")) &&
  (streamChatToOllama t.world modelName (h ++ [⟨str "user", trimNewline t.line⟩])).err.isNone

/-- The number of successful turns among the iterations that `loop` runs on
the inputs `turns` from the transcript `h`. -/
def successes (modelName : GoString) : List Turn → List ChatMessage → Nat
  | [], _ => 0
  | t :: ts, h =>
    match (iteration modelName t h).flow with
    | .stop => 0
    | .next =>
      (if turnSucceeds modelName t h then 1 else 0) +
        successes modelName ts (iteration modelName t h).conversationHistory

/-! ## Concrete inputs -/

/-- A decoder for concrete inputs: what `json.Unmarshal` returns on the three
lines of the streamed reply `Hel`, `lo`, done; it rejects every other line. -/
def sampleUnmarshal (line : GoString) : Except GoString OllamaChatResponse :=
  if line = str "\x7b\"message\":\x7b\"content\":\"Hel\"\x7d,\"done\":false\x7d" then
    .ok ⟨[], [], ⟨[], str "Hel"⟩, false⟩
  else if line = str "\x7b\"message\":\x7b\"content\":\"lo\"\x7d,\"done\":false\x7d" then
    .ok ⟨[], [], ⟨[], str "lo"⟩, false⟩
  else if line = str "\x7b\"message\":\x7b\"content\":\"\"\x7d,\"done\":true\x7d" then
    .ok ⟨[], [], ⟨[], []⟩, true⟩
  else
    .error (str "invalid character")

/-- A world for concrete inputs: the request is built, `client.Do` answers
`answer`, lines are decoded by `sampleUnmarshal`. -/
def sampleWorld (answer : Except GoString Response) : World where
  Marshal := fun _ => .ok (str "request")
  NewRequest := fun m u b => .ok ⟨m, u, [], b⟩
  Do := fun _ => answer
  Unmarshal := sampleUnmarshal

/-- The three lines of the streamed reply `Hello`, with a zero-length line
among them, followed by two further lines; no scanner fault. -/
def helloTokens : List Token :=
  [⟨str "\x7b\"message\":\x7b\"content\":\"Hel\"\x7d,\"done\":false\x7d", none⟩,
   ⟨[], none⟩,
   ⟨str "\x7b\"message\":\x7b\"content\":\"lo\"\x7d,\"done\":false\x7d", none⟩,
   ⟨str "\x7b\"message\":\x7b\"content\":\"\"\x7d,\"done\":true\x7d", none⟩,
   ⟨str "\x7b\"message\":\x7b\"content\":\"lo\"\x7d,\"done\":false\x7d", none⟩,
   ⟨str "not json", none⟩]

/-- The three lines of the streamed reply `Hello`, with a zero-length line
among them, after which the stream breaks: the scanner still delivers two
lines, reporting `unexpected EOF` from then on. -/
def helloThenFaultTokens : List Token :=
  [⟨str "\x7b\"message\":\x7b\"content\":\"Hel\"\x7d,\"done\":false\x7d", none⟩,
   ⟨[], none⟩,
   ⟨str "\x7b\"message\":\x7b\"content\":\"lo\"\x7d,\"done\":false\x7d", none⟩,
   ⟨str "\x7b\"message\":\x7b\"content\":\"\"\x7d,\"done\":true\x7d", none⟩,
   ⟨str "\x7b\"message\":\x7b\"content\":\"lo\"\x7d,\"done\":false\x7d",
     some (str "unexpected EOF")⟩,
   ⟨str "not json", some (str "unexpected EOF")⟩]

/-- The lines of `Hel`, `lo`, done with a line that is not JSON among them;
no scanner fault. -/
def garbledTokens : List Token :=
  [⟨str "\x7b\"message\":\x7b\"content\":\"Hel\"\x7d,\"done\":false\x7d", none⟩,
   ⟨str "not json", none⟩,
   ⟨str "\x7b\"message\":\x7b\"content\":\"lo\"\x7d,\"done\":false\x7d", none⟩,
   ⟨str "\x7b\"message\":\x7b\"content\":\"\"\x7d,\"done\":true\x7d", none⟩]

/-- The lines of `Hel`, `lo` and no line that is done. -/
def openTokens : List Token :=
  [⟨str "\x7b\"message\":\x7b\"content\":\"Hel\"\x7d,\"done\":false\x7d", none⟩,
   ⟨str "\x7b\"message\":\x7b\"content\":\"lo\"\x7d,\"done\":false\x7d", none⟩]

/-- An HTTP 500 response with the body `model not found`. -/
def notFoundResponse : Response :=
  ⟨500, str "500 Internal Server Error",
    ⟨str "model not found", none, [⟨str "model not found", none⟩], none⟩⟩

/-- An HTTP 200 response whose body delivers `toks` and then ends with
`endErr`; `io.ReadAll` is not called on such a response and its fields are
left empty. -/
def okResponse (toks : List Token) (endErr : Option GoString) : Response :=
  ⟨200, str "200 OK", ⟨[], none, toks, endErr⟩⟩

/-- The inputs of five iterations: a turn whose request fails to be sent, a
failed read, a turn answered with `Hello`, the line `quit`, and a turn that
is not reached. -/
def sampleTurns : List Turn :=
  [⟨str "hi\n", none, sampleWorld (.error (str "connection refused"))⟩,
   ⟨[], some (str "EOF"), sampleWorld (.error (str "connection refused"))⟩,
   ⟨str "hi again\r\n", none, sampleWorld (.ok (okResponse helloTokens none))⟩,
   ⟨str "quit\n", none, sampleWorld (.ok (okResponse helloTokens none))⟩,
   ⟨str "late\n", none, sampleWorld (.ok (okResponse helloTokens none))⟩]

/-! ## Properties of `trimNewline` -/

/-- The two steps of `trimNewline` in terms of the last byte. -/
theorem trimNewline_eq (s : GoString) :
    trimNewline s =
      (if (if s.getLast? = some 0x0A then s.dropLast else s).getLast? = some 0x0D then
        (if s.getLast? = some 0x0A then s.dropLast else s).dropLast
      else (if s.getLast? = some 0x0A then s.dropLast else s)) := by
  have key : ∀ (l : GoString) (b : UInt8),
      (if l.length > 0 ∧ l.get? (l.length - 1) = some b then l.take (l.length - 1) else l) =
        (if l.getLast? = some b then l.dropLast else l) := by
    intro l b
    have h1 : l.get? (l.length - 1) = l.getLast? := by
      rw [List.getLast?_eq_getElem?, List.get?_eq_getElem?]
    have h2 : l.take (l.length - 1) = l.dropLast := (List.dropLast_eq_take l).symm
    rw [h1, h2]
    by_cases h : l.getLast? = some b
    · have hl : l.length > 0 := by
        cases l with
        | nil => simp at h
        | cons a t => simp
      simp [h, hl]
    · simp [h]
  unfold trimNewline
  simp only [key]

/-- A string whose last byte is `b` is its `dropLast` followed by `b`. -/
theorem dropLast_append_of_getLast? (l : GoString) (b : UInt8) (h : l.getLast? = some b) :
    l = l.dropLast ++ [b] :=
  (List.dropLast_append_getLast? b (by simp [h])).symm

/-- C10. `trimNewline` strips exactly one line terminator: a string `t` that
does not end in `\r` or `\n` is returned as it is, and is what is returned
for `t` followed by `\n`, by `\r\n` or by `\r`; and every string `s` is
`trimNewline s` followed by at most one `\r` and then at most one `\n`, so
`trimNewline s` is a prefix of `s` at most two bytes shorter. -/
theorem trimNewline_strips_one_terminator :
    (∀ t : GoString, t.getLast? ≠ some 0x0D → t.getLast? ≠ some 0x0A →
      trimNewline t = t ∧ trimNewline (t ++ str "\n") = t ∧
      trimNewline (t ++ str "\r\n") = t ∧ trimNewline (t ++ str "\r") = t) ∧
    (∀ s : GoString, ∃ cr lf : GoString,
      (cr = [] ∨ cr = str "\r") ∧ (lf = [] ∨ lf = str "\n") ∧
      s = trimNewline s ++ cr ++ lf ∧
      trimNewline s <+: s ∧ s.length ≤ (trimNewline s).length + 2) := by
  have hlf : str "\n" = [0x0A] := by decide
  have hcr : str "\r" = [0x0D] := by decide
  have hcrlf : str "\r\n" = [0x0D, 0x0A] := by decide
  constructor
  · intro t hr hn
    rw [hlf, hcr, hcrlf]
    refine ⟨?_, ?_, ?_, ?_⟩
    · rw [trimNewline_eq]; simp [hr, hn]
    · rw [trimNewline_eq]; simp [hr]
    · rw [trimNewline_eq]
      have : t ++ [0x0D, 0x0A] = (t ++ [0x0D]) ++ [0x0A] := by simp
      rw [this]; simp
    · rw [trimNewline_eq]; simp
  · intro s
    have main : ∃ cr lf : GoString, (cr = [] ∨ cr = str "\r") ∧ (lf = [] ∨ lf = str "\n") ∧
        s = trimNewline s ++ cr ++ lf := by
      rw [hlf, hcr, trimNewline_eq]
      by_cases h1 : s.getLast? = some 0x0A
      · have e1 := dropLast_append_of_getLast? s _ h1
        by_cases h2 : s.dropLast.getLast? = some 0x0D
        · have e2 := dropLast_append_of_getLast? s.dropLast _ h2
          refine ⟨[0x0D], [0x0A], Or.inr rfl, Or.inr rfl, ?_⟩
          simp only [if_pos h1, if_pos h2]
          rw [← e2, ← e1]
        · refine ⟨[], [0x0A], Or.inl rfl, Or.inr rfl, ?_⟩
          simp only [if_pos h1, if_neg h2, List.append_nil]
          exact e1
      · by_cases h2 : s.getLast? = some 0x0D
        · have e2 := dropLast_append_of_getLast? s _ h2
          refine ⟨[0x0D], [], Or.inr rfl, Or.inl rfl, ?_⟩
          simp only [if_neg h1, if_pos h2, List.append_nil]
          exact e2
        · refine ⟨[], [], Or.inl rfl, Or.inl rfl, ?_⟩
          simp only [if_neg h1, if_neg h2, List.append_nil]
    obtain ⟨cr, lf, hc, hl, hs⟩ := main
    refine ⟨cr, lf, hc, hl, hs, ?_, ?_⟩
    · exact ⟨cr ++ lf, by rw [← List.append_assoc]; exact hs.symm⟩
    · have hlen : s.length = (trimNewline s).length + cr.length + lf.length := by
        have h := congrArg List.length hs
        simp only [List.length_append] at h
        exact h
      have c1 : cr.length ≤ 1 := by
        rcases hc with h | h <;> simp [h, hcr]
      have c2 : lf.length ≤ 1 := by
        rcases hl with h | h <;> simp [h, hlf]
      omega

/-- Witness of C10 at `t = "exit"` and `s = "exit\r\n"`. -/
theorem trimNewline_strips_one_terminator_witness :
    (str "exit").getLast? ≠ some 0x0D ∧ (str "exit").getLast? ≠ some 0x0A ∧
    (trimNewline (str "exit") = str "exit" ∧ trimNewline (str "exit" ++ str "\n") = str "exit" ∧
      trimNewline (str "exit" ++ str "\r\n") = str "exit" ∧
      trimNewline (str "exit" ++ str "\r") = str "exit") :=
  ⟨by decide, by decide,
    trimNewline_strips_one_terminator.1 (str "exit") (by decide) (by decide)⟩

/-! ## The scan loop -/

/-- The scan loop started with a builder and events already present adds to
them what it produces when started empty. -/
theorem scanLoop_acc (U : GoString → Except GoString OllamaChatResponse)
    (toks : List Token) (endErr : Option GoString) (full : GoString) (ev : List Event) :
    scanLoop U toks endErr full ev =
      ⟨full ++ (scanLoop U toks endErr [] []).fullResponse,
        (scanLoop U toks endErr [] []).scanErr,
        ev ++ (scanLoop U toks endErr [] []).events⟩ := by
  induction toks generalizing full ev with
  | nil => simp [scanLoop]
  | cons tok rest ih =>
    by_cases h0 : tok.line.length = 0
    · simp only [scanLoop, if_pos h0]
      exact ih full ev
    · cases hU : U tok.line with
      | error err =>
        simp only [scanLoop, if_neg h0, hU]
        rw [ih full, ih [] ([] ++ _)]
        simp
      | ok f =>
        by_cases hd : f.Done = true
        · simp [scanLoop, h0, hU, hd]
        · simp only [scanLoop, if_neg h0, hU, if_neg hd]
          rw [ih (full ++ _), ih ([] ++ _) ([] ++ _)]
          simp

/-- The fragments of a list of lines, line by line. -/
theorem fragments_cons (U : GoString → Except GoString OllamaChatResponse)
    (l : GoString) (ls : List GoString) :
    fragments U (l :: ls) =
      (if l = [] then fragments U ls
       else match U l with
         | .ok f => f :: fragments U ls
         | .error _ => fragments U ls) := by
  by_cases h : l = []
  · simp [fragments, h]
  · cases hU : U l <;> simp [fragments, h, parse, hU]

/-- The fragments of two lists of lines one after the other. -/
theorem fragments_append (U : GoString → Except GoString OllamaChatResponse)
    (ls ms : List GoString) :
    fragments U (ls ++ ms) = fragments U ls ++ fragments U ms := by
  simp [fragments]

/-- What follows a fragment whose `Done` is true is cut off. -/
theorem upToDone_append_done (fs gs : List OllamaChatResponse) (f : OllamaChatResponse)
    (hf : f.Done = true) : upToDone (fs ++ f :: gs) = upToDone (fs ++ [f]) := by
  induction fs with
  | nil => simp [upToDone, hf]
  | cons g fs ih =>
    by_cases hg : g.Done = true
    · simp [upToDone, hg]
    · simp [upToDone, hg, ih]

/-- Without a fragment whose `Done` is true, nothing is cut off. -/
theorem upToDone_of_no_done (fs : List OllamaChatResponse)
    (h : ∀ f ∈ fs, f.Done = false) : upToDone fs = fs := by
  induction fs with
  | nil => rfl
  | cons g fs ih =>
    have hg : g.Done = false := h g (List.mem_cons_self _ _)
    have hfs : ∀ f ∈ fs, f.Done = false := fun f hf => h f (List.mem_cons_of_mem _ hf)
    simp [upToDone, hg, ih hfs]

/-- The builder at the end of the scan loop holds the contents of the
fragments up to the first one that is done. -/
theorem scanLoop_fullResponse (U : GoString → Except GoString OllamaChatResponse)
    (toks : List Token) (endErr : Option GoString) :
    (scanLoop U toks endErr [] []).fullResponse =
      contents (upToDone (fragments U (toks.map Token.line))) := by
  induction toks with
  | nil => simp [scanLoop, fragments, upToDone, contents]
  | cons tok rest ih =>
    rw [List.map_cons, fragments_cons]
    by_cases h0 : tok.line = []
    · simp only [scanLoop, h0, List.length_nil, if_true]
      exact ih
    · have h0len : ¬ tok.line.length = 0 := by simpa [List.length_eq_zero] using h0
      cases hU : U tok.line with
      | error err =>
        simp only [scanLoop, if_neg h0len, hU, if_neg h0]
        rw [scanLoop_acc]
        simpa using ih
      | ok f =>
        by_cases hd : f.Done = true
        · simp [scanLoop, h0, hU, hd, upToDone, contents]
        · simp only [scanLoop, if_neg h0len, hU, if_neg hd, if_neg h0]
          rw [scanLoop_acc]
          simp [upToDone, hd, contents] at ih ⊢
          exact ih

/-- When the loop is left, `scanner.Err()` is the fault the read has met:
the one reported after the line that ended the reading, or the one reported
at the end of the stream. -/
theorem scanLoop_scanErr (U : GoString → Except GoString OllamaChatResponse)
    (toks : List Token) (endErr : Option GoString) :
    (scanLoop U toks endErr [] []).scanErr = readFault U toks endErr := by
  induction toks with
  | nil => simp [scanLoop, readFault]
  | cons tok rest ih =>
    by_cases h0 : tok.line = []
    · have hnot : isDoneLine U tok = false := by simp [isDoneLine, h0]
      have hfind : readFault U (tok :: rest) endErr = readFault U rest endErr := by
        simp [readFault, List.find?_cons, hnot]
      simp only [scanLoop, h0, List.length_nil, if_true]
      rw [hfind]
      exact ih
    · have h0len : ¬ tok.line.length = 0 := by simpa [List.length_eq_zero] using h0
      cases hU : U tok.line with
      | error err =>
        have hnot : isDoneLine U tok = false := by simp [isDoneLine, hU]
        have hfind : readFault U (tok :: rest) endErr = readFault U rest endErr := by
          simp [readFault, List.find?_cons, hnot]
        simp only [scanLoop, if_neg h0len, hU]
        rw [scanLoop_acc, hfind]
        exact ih
      | ok f =>
        by_cases hd : f.Done = true
        · have hyes : isDoneLine U tok = true := by simp [isDoneLine, h0, hU, hd]
          simp [scanLoop, h0, hU, hd, readFault, List.find?_cons, hyes]
        · have hnot : isDoneLine U tok = false := by simp [isDoneLine, hU, hd]
          have hfind : readFault U (tok :: rest) endErr = readFault U rest endErr := by
            simp [readFault, List.find?_cons, hnot]
          simp only [scanLoop, if_neg h0len, hU, if_neg hd]
          rw [scanLoop_acc, hfind]
          exact ih

/-- Without a fragment that is done, the loop is left when `Scan()` returns
false, and `scanner.Err()` is what the scanner reports then. -/
theorem scanLoop_scanErr_of_no_done (U : GoString → Except GoString OllamaChatResponse)
    (toks : List Token) (endErr : Option GoString)
    (hnd : ∀ f ∈ fragments U (toks.map Token.line), f.Done = false) :
    (scanLoop U toks endErr [] []).scanErr = endErr := by
  induction toks with
  | nil => simp [scanLoop]
  | cons tok rest ih =>
    rw [List.map_cons, fragments_cons] at hnd
    by_cases h0 : tok.line = []
    · simp only [scanLoop, h0, List.length_nil, if_true]
      rw [if_pos h0] at hnd
      exact ih hnd
    · have h0len : ¬ tok.line.length = 0 := by simpa [List.length_eq_zero] using h0
      rw [if_neg h0] at hnd
      cases hU : U tok.line with
      | error err =>
        rw [hU] at hnd
        simp only [scanLoop, if_neg h0len, hU]
        rw [scanLoop_acc]
        exact ih hnd
      | ok f =>
        rw [hU] at hnd
        have hd : ¬ f.Done = true := by
          have := hnd f (List.mem_cons_self _ _)
          simp [this]
        simp only [scanLoop, if_neg h0len, hU, if_neg hd]
        rw [scanLoop_acc]
        exact ih (fun g hg => hnd g (List.mem_cons_of_mem _ hg))

/-- Zero-length lines leave the scan loop as it is. -/
theorem scanLoop_filter (U : GoString → Except GoString OllamaChatResponse)
    (toks : List Token) (endErr : Option GoString) (full : GoString) (ev : List Event) :
    scanLoop U (toks.filter (fun t => t.line ≠ [])) endErr full ev =
      scanLoop U toks endErr full ev := by
  induction toks generalizing full ev with
  | nil => rfl
  | cons tok rest ih =>
    by_cases h0 : tok.line = []
    · rw [List.filter_cons_of_neg (by simpa using h0)]
      simp only [scanLoop, h0, List.length_nil, if_true]
      exact ih full ev
    · have h0len : ¬ tok.line.length = 0 := by simpa [List.length_eq_zero] using h0
      rw [List.filter_cons_of_pos (by simpa using h0)]
      cases hU : U tok.line with
      | error err => simp only [scanLoop, if_neg h0len, hU, ih]
      | ok f =>
        by_cases hd : f.Done = true
        · simp [scanLoop, h0, hU, hd]
        · simp only [scanLoop, if_neg h0len, hU, if_neg hd, ih]

/-- The text written during two runs of events one after the other. -/
theorem stdout_append (a b : List Event) : stdout (a ++ b) = stdout a ++ stdout b := by
  induction a with
  | nil => rfl
  | cons e a ih => cases e <;> simp [stdout, ih]

/-- A line that is not zero-length and does not parse changes neither the
builder, nor `scanner.Err()`, nor what is printed. -/
theorem scanLoop_skip_malformed (U : GoString → Except GoString OllamaChatResponse)
    (pre post : List Token) (bad : Token) (cause : GoString) (endErr : Option GoString)
    (hne : bad.line ≠ []) (hbad : U bad.line = .error cause) :
    (scanLoop U (pre ++ bad :: post) endErr [] []).fullResponse =
        (scanLoop U (pre ++ post) endErr [] []).fullResponse ∧
      (scanLoop U (pre ++ bad :: post) endErr [] []).scanErr =
        (scanLoop U (pre ++ post) endErr [] []).scanErr ∧
      stdout (scanLoop U (pre ++ bad :: post) endErr [] []).events =
        stdout (scanLoop U (pre ++ post) endErr [] []).events := by
  induction pre with
  | nil =>
    have hlen : ¬ bad.line.length = 0 := by simpa [List.length_eq_zero] using hne
    simp only [List.nil_append, scanLoop, if_neg hlen, hbad]
    rw [scanLoop_acc]
    simp [stdout_append, stdout]
  | cons tok pre ih =>
    obtain ⟨ih1, ih2, ih3⟩ := ih
    simp only [List.cons_append]
    by_cases h0 : tok.line.length = 0
    · simp only [scanLoop, if_pos h0]
      exact ⟨ih1, ih2, ih3⟩
    · cases hU : U tok.line with
      | error err =>
        simp only [scanLoop, if_neg h0, hU]
        rw [scanLoop_acc U (pre ++ bad :: post), scanLoop_acc U (pre ++ post)]
        simp [stdout_append, stdout, ih1, ih2, ih3]
      | ok f =>
        by_cases hd : f.Done = true
        · simp [scanLoop, h0, hU, hd]
        · simp only [scanLoop, if_neg h0, hU, if_neg hd]
          rw [scanLoop_acc U (pre ++ bad :: post), scanLoop_acc U (pre ++ post)]
          simp [stdout_append, stdout, ih1, ih2, ih3]

/-- The result of `streamChatToOllama` when the request is built and sent and
the response has status 200, in terms of the scan loop. -/
theorem streamChatToOllama_of_200 (w : World) (modelName : GoString)
    (messages : List ChatMessage) (jsonData : GoString) (req : Request) (resp : Response)
    (hM : w.Marshal ⟨modelName, messages, true⟩ = .ok jsonData)
    (hN : w.NewRequest (str "POST") ollamaChatAPI jsonData = .ok req)
    (hD : w.Do { req with
      Header := headerSet req.Header (str "Content-Type") (str "application/json") } = .ok resp)
    (h200 : resp.StatusCode = 200) :
    streamChatToOllama w modelName messages =
      ⟨match (scanLoop w.Unmarshal resp.Body.tokens resp.Body.endErr [] []).scanErr with
        | some _ => []
        | none => (scanLoop w.Unmarshal resp.Body.tokens resp.Body.endErr [] []).fullResponse,
       (scanLoop w.Unmarshal resp.Body.tokens resp.Body.endErr [] []).scanErr.map ChatError.stream,
       [.Call modelName messages, .Do { req with
          Header := headerSet req.Header (str "Content-Type") (str "application/json") }] ++
        (scanLoop w.Unmarshal resp.Body.tokens resp.Body.endErr [] []).events ++ [.Close]⟩ := by
  unfold streamChatToOllama
  simp only [hM, hN, hD, h200]
  rw [scanLoop_acc]
  cases h : (scanLoop w.Unmarshal resp.Body.tokens resp.Body.endErr [] []).scanErr <;> simp [h]

/-- Two status-200 responses whose scan loops agree on the builder, on
`scanner.Err()` and on what is printed give the same text, the same error
and the same printed text. -/
theorem streamChatToOllama_respond_congr (w : World) (modelName : GoString)
    (messages : List ChatMessage) (resp resp2 : Response)
    (h200 : resp.StatusCode = 200) (h200b : resp2.StatusCode = 200)
    (hfull : (scanLoop w.Unmarshal resp.Body.tokens resp.Body.endErr [] []).fullResponse =
      (scanLoop w.Unmarshal resp2.Body.tokens resp2.Body.endErr [] []).fullResponse)
    (herr : (scanLoop w.Unmarshal resp.Body.tokens resp.Body.endErr [] []).scanErr =
      (scanLoop w.Unmarshal resp2.Body.tokens resp2.Body.endErr [] []).scanErr)
    (hout : stdout (scanLoop w.Unmarshal resp.Body.tokens resp.Body.endErr [] []).events =
      stdout (scanLoop w.Unmarshal resp2.Body.tokens resp2.Body.endErr [] []).events) :
    (streamChatToOllama (w.respond resp) modelName messages).text =
        (streamChatToOllama (w.respond resp2) modelName messages).text ∧
      (streamChatToOllama (w.respond resp) modelName messages).err =
        (streamChatToOllama (w.respond resp2) modelName messages).err ∧
      stdout (streamChatToOllama (w.respond resp) modelName messages).events =
        stdout (streamChatToOllama (w.respond resp2) modelName messages).events := by
  cases hM : w.Marshal ⟨modelName, messages, true⟩ with
  | error e => simp [streamChatToOllama, World.respond, hM]
  | ok jsonData =>
    cases hN : w.NewRequest (str "POST") ollamaChatAPI jsonData with
    | error e => simp [streamChatToOllama, World.respond, hM, hN]
    | ok req =>
      rw [streamChatToOllama_of_200 (w.respond resp) modelName messages jsonData req resp
          hM hN rfl h200,
        streamChatToOllama_of_200 (w.respond resp2) modelName messages jsonData req resp2
          hM hN rfl h200b]
      simp only [World.respond]
      refine ⟨?_, ?_, ?_⟩
      · simp only [hfull, herr]
      · simp only [herr]
      · simp [stdout_append, stdout, hout]

/-! ## Properties of `streamChatToOllama` -/

/-- C3. Accumulation with early stop: when the request is sent and answered
with status 200 and the read of the body meets no scanner fault (the read
ends at the first line that parses to a done fragment, whatever the stream
holds or does after it), `streamChatToOllama` returns no error and the
concatenation, in order, of `message.content` of the lines that are not
zero-length and parse, up to and including the first fragment that is done
(all of them if none is); the lines after a line that parsed to a done
fragment do not contribute. -/
theorem accumulation_with_early_stop (w : World) (modelName : GoString)
    (messages : List ChatMessage) (jsonData : GoString) (req : Request) (resp : Response)
    (hM : w.Marshal ⟨modelName, messages, true⟩ = .ok jsonData)
    (hN : w.NewRequest (str "POST") ollamaChatAPI jsonData = .ok req)
    (hD : w.Do { req with
      Header := headerSet req.Header (str "Content-Type") (str "application/json") } = .ok resp)
    (h200 : resp.StatusCode = 200)
    (hfault : readFault w.Unmarshal resp.Body.tokens resp.Body.endErr = none) :
    (streamChatToOllama w modelName messages).err = none ∧
    (streamChatToOllama w modelName messages).text =
      contents (upToDone (fragments w.Unmarshal (resp.Body.tokens.map Token.line))) ∧
    ∀ (pre post : List GoString) (d : GoString) (f : OllamaChatResponse),
      resp.Body.tokens.map Token.line = pre ++ d :: post → d ≠ [] →
      w.Unmarshal d = .ok f → f.Done = true →
      (streamChatToOllama w modelName messages).text =
        contents (upToDone (fragments w.Unmarshal (pre ++ [d]))) := by
  have hres := streamChatToOllama_of_200 w modelName messages jsonData req resp hM hN hD h200
  have herr : (scanLoop w.Unmarshal resp.Body.tokens resp.Body.endErr [] []).scanErr = none := by
    rw [scanLoop_scanErr]
    exact hfault
  have htext : (streamChatToOllama w modelName messages).text =
      contents (upToDone (fragments w.Unmarshal (resp.Body.tokens.map Token.line))) := by
    rw [hres]
    simp only [herr]
    exact scanLoop_fullResponse w.Unmarshal resp.Body.tokens resp.Body.endErr
  refine ⟨?_, htext, ?_⟩
  · rw [hres]
    simp only [herr, Option.map_none']
  · intro pre post d f hlines hd hU hdone
    have e1 : fragments w.Unmarshal (d :: post) = f :: fragments w.Unmarshal post := by
      rw [fragments_cons, if_neg hd, hU]
    have e2 : fragments w.Unmarshal [d] = [f] := by
      rw [fragments_cons, if_neg hd, hU]
      rfl
    rw [htext, hlines, fragments_append, fragments_append, e1, e2,
      upToDone_append_done _ _ f hdone]

/-- Witness of C3: the lines `Hel`, `lo`, done return exactly `Hello` and no
error, although the stream breaks after the done line: the two lines that
follow it and the fault the scanner reports from then on are not read. -/
theorem accumulation_with_early_stop_witness :
    readFault sampleUnmarshal helloThenFaultTokens (some (str "unexpected EOF")) = none ∧
    (streamChatToOllama
      (sampleWorld (.ok (okResponse helloThenFaultTokens (some (str "unexpected EOF")))))
      (str "llama3.2:3b") []).err = none ∧
    (streamChatToOllama
      (sampleWorld (.ok (okResponse helloThenFaultTokens (some (str "unexpected EOF")))))
      (str "llama3.2:3b") []).text = str "Hello" ∧
    (streamChatToOllama (sampleWorld (.ok (okResponse helloTokens none)))
      (str "llama3.2:3b") []).text = str "Hello" :=
  have h := accumulation_with_early_stop
    (sampleWorld (.ok (okResponse helloThenFaultTokens (some (str "unexpected EOF")))))
    (str "llama3.2:3b") [] (str "request") ⟨str "POST", ollamaChatAPI, [], str "request"⟩
    (okResponse helloThenFaultTokens (some (str "unexpected EOF"))) rfl rfl rfl rfl (by decide)
  ⟨by decide, h.1, h.2.1.trans (by decide), by decide⟩

/-- C4. Zero-length lines are neutral: two status-200 bodies that differ only
by zero-length lines (the lines that are not zero-length are the same, in the
same order, and the scanner ends in the same way) give the same returned
text, the same error or success, and the same printed text. -/
theorem zero_length_lines_neutral (w : World) (modelName : GoString)
    (messages : List ChatMessage) (resp resp2 : Response)
    (h200 : resp.StatusCode = 200) (h200b : resp2.StatusCode = 200)
    (hend : resp.Body.endErr = resp2.Body.endErr)
    (hlines : resp.Body.tokens.filter (fun t => t.line ≠ []) =
      resp2.Body.tokens.filter (fun t => t.line ≠ [])) :
    (streamChatToOllama (w.respond resp) modelName messages).text =
        (streamChatToOllama (w.respond resp2) modelName messages).text ∧
      (streamChatToOllama (w.respond resp) modelName messages).err =
        (streamChatToOllama (w.respond resp2) modelName messages).err ∧
      stdout (streamChatToOllama (w.respond resp) modelName messages).events =
        stdout (streamChatToOllama (w.respond resp2) modelName messages).events := by
  have key : scanLoop w.Unmarshal resp.Body.tokens resp.Body.endErr [] [] =
      scanLoop w.Unmarshal resp2.Body.tokens resp2.Body.endErr [] [] := by
    rw [← scanLoop_filter w.Unmarshal resp.Body.tokens, hlines, hend, scanLoop_filter]
  exact streamChatToOllama_respond_congr w modelName messages resp resp2 h200 h200b
    (by rw [key]) (by rw [key]) (by rw [key])

/-- Witness of C4: the reply `Hello` with and without its zero-length line. -/
theorem zero_length_lines_neutral_witness :
    (okResponse helloTokens none).StatusCode = 200 ∧
    (helloTokens.filter (fun t => t.line ≠ [])).length + 1 = helloTokens.length ∧
    (streamChatToOllama ((sampleWorld (.error [])).respond (okResponse helloTokens none))
        (str "llama3.2:3b") []).text =
      (streamChatToOllama ((sampleWorld (.error [])).respond
        (okResponse (helloTokens.filter (fun t => t.line ≠ [])) none))
        (str "llama3.2:3b") []).text :=
  ⟨rfl, by decide,
    (zero_length_lines_neutral (sampleWorld (.error [])) (str "llama3.2:3b") []
      (okResponse helloTokens none)
      (okResponse (helloTokens.filter (fun t => t.line ≠ [])) none)
      rfl rfl rfl (by decide)).1⟩

/-- C5. Malformed lines are not fatal: in a status-200 body, a line that is
not zero-length and that `json.Unmarshal` rejects can be deleted without
changing the returned text, the returned error or success, or the printed
text; so it contributes nothing, raises no error and does not stop the lines
after it from being accumulated. -/
theorem malformed_line_is_skipped (w : World) (modelName : GoString)
    (messages : List ChatMessage) (resp : Response) (pre post : List Token) (bad : Token)
    (cause : GoString) (h200 : resp.StatusCode = 200)
    (htoks : resp.Body.tokens = pre ++ bad :: post)
    (hne : bad.line ≠ []) (hbad : w.Unmarshal bad.line = .error cause) :
    (streamChatToOllama (w.respond resp) modelName messages).text =
        (streamChatToOllama (w.respond
          { resp with Body := { resp.Body with tokens := pre ++ post } })
          modelName messages).text ∧
      (streamChatToOllama (w.respond resp) modelName messages).err =
        (streamChatToOllama (w.respond
          { resp with Body := { resp.Body with tokens := pre ++ post } })
          modelName messages).err ∧
      stdout (streamChatToOllama (w.respond resp) modelName messages).events =
        stdout (streamChatToOllama (w.respond
          { resp with Body := { resp.Body with tokens := pre ++ post } })
          modelName messages).events := by
  have h := scanLoop_skip_malformed w.Unmarshal pre post bad cause resp.Body.endErr hne hbad
  refine streamChatToOllama_respond_congr w modelName messages resp _ h200 h200 ?_ ?_ ?_
  · rw [htoks]; exact h.1
  · rw [htoks]; exact h.2.1
  · rw [htoks]; exact h.2.2

/-- Witness of C5: the line `not json` between `Hel` and `lo` is skipped, the
reply is `Hello` and no error is returned. -/
theorem malformed_line_is_skipped_witness :
    (okResponse garbledTokens none).StatusCode = 200 ∧
    sampleUnmarshal (str "not json") = .error (str "invalid character") ∧
    (streamChatToOllama ((sampleWorld (.error [])).respond (okResponse garbledTokens none))
      (str "llama3.2:3b") []).text = str "Hello" ∧
    (streamChatToOllama ((sampleWorld (.error [])).respond (okResponse garbledTokens none))
      (str "llama3.2:3b") []).err = none :=
  have h := malformed_line_is_skipped (sampleWorld (.error [])) (str "llama3.2:3b") []
    (okResponse garbledTokens none) (garbledTokens.take 1) (garbledTokens.drop 2)
    ⟨str "not json", none⟩ (str "invalid character") rfl (by decide) (by decide) rfl
  ⟨rfl, rfl, h.1.trans (by decide), h.2.1.trans (by decide)⟩

/-- C7. A response whose status is not 200: `streamChatToOllama` returns the
empty text and the error of the status site, whose message contains the
status text and the body text read by `io.ReadAll` (whose own error, if any,
is discarded); the call issues the request, reads the body and closes it,
and nothing else: no line is parsed, nothing is printed. -/
theorem non_200_is_http_error (w : World) (modelName : GoString)
    (messages : List ChatMessage) (jsonData : GoString) (req : Request) (resp : Response)
    (hM : w.Marshal ⟨modelName, messages, true⟩ = .ok jsonData)
    (hN : w.NewRequest (str "POST") ollamaChatAPI jsonData = .ok req)
    (hD : w.Do { req with
      Header := headerSet req.Header (str "Content-Type") (str "application/json") } = .ok resp)
    (hne : resp.StatusCode ≠ 200) :
    (streamChatToOllama w modelName messages).text = [] ∧
    (streamChatToOllama w modelName messages).err =
      some (.status resp.Status resp.Body.readAll) ∧
    resp.Status <:+: (ChatError.status resp.Status resp.Body.readAll).Error ∧
    resp.Body.readAll <:+: (ChatError.status resp.Status resp.Body.readAll).Error ∧
    (streamChatToOllama w modelName messages).events =
      [.Call modelName messages,
       .Do { req with
         Header := headerSet req.Header (str "Content-Type") (str "application/json") },
       .ReadAll, .Close] ∧
    stdout (streamChatToOllama w modelName messages).events = [] := by
  have hres : streamChatToOllama w modelName messages =
      ⟨[], some (.status resp.Status resp.Body.readAll),
        [.Call modelName messages,
         .Do { req with
           Header := headerSet req.Header (str "Content-Type") (str "application/json") },
         .ReadAll, .Close]⟩ := by
    unfold streamChatToOllama
    simp [hM, hN, hD, hne]
  refine ⟨by rw [hres], by rw [hres], ?_, ?_, by rw [hres], by rw [hres]; rfl⟩
  · exact ⟨str "received non-OK HTTP status: ", str ", body: " ++ resp.Body.readAll,
      by simp [ChatError.Error]⟩
  · exact ⟨str "received non-OK HTTP status: " ++ resp.Status ++ str ", body: ", [],
      by simp [ChatError.Error]⟩

/-- Witness of C7: status 500 with the body `model not found`. -/
theorem non_200_is_http_error_witness :
    notFoundResponse.StatusCode ≠ 200 ∧
    (streamChatToOllama (sampleWorld (.ok notFoundResponse)) (str "llama3.2:3b") []).text = [] ∧
    ((streamChatToOllama (sampleWorld (.ok notFoundResponse)) (str "llama3.2:3b") []).err.map
      ChatError.Error) = some (str
        "received non-OK HTTP status: 500 Internal Server Error, body: model not found") :=
  have h := non_200_is_http_error (sampleWorld (.ok notFoundResponse)) (str "llama3.2:3b") []
    (str "request") ⟨str "POST", ollamaChatAPI, [], str "request"⟩ notFoundResponse
    rfl rfl rfl (by decide)
  ⟨by decide, h.1, by rw [h.2.1]; decide⟩

/-- C8. Stream read fault: in a status-200 response none of whose lines
parses to a done fragment, if the scanner ends with a read error then
`streamChatToOllama` returns the empty text and the error of the stream
site, whatever was accumulated; if the scanner simply ends, it returns no
error and the accumulated contents of all fragments. -/
theorem stream_read_fault (w : World) (modelName : GoString)
    (messages : List ChatMessage) (jsonData : GoString) (req : Request) (resp : Response)
    (hM : w.Marshal ⟨modelName, messages, true⟩ = .ok jsonData)
    (hN : w.NewRequest (str "POST") ollamaChatAPI jsonData = .ok req)
    (hD : w.Do { req with
      Header := headerSet req.Header (str "Content-Type") (str "application/json") } = .ok resp)
    (h200 : resp.StatusCode = 200)
    (hnd : ∀ f ∈ fragments w.Unmarshal (resp.Body.tokens.map Token.line), f.Done = false) :
    (∀ cause, resp.Body.endErr = some cause →
      (streamChatToOllama w modelName messages).text = [] ∧
      (streamChatToOllama w modelName messages).err = some (.stream cause)) ∧
    (resp.Body.endErr = none →
      (streamChatToOllama w modelName messages).err = none ∧
      (streamChatToOllama w modelName messages).text =
        contents (fragments w.Unmarshal (resp.Body.tokens.map Token.line))) := by
  have hres := streamChatToOllama_of_200 w modelName messages jsonData req resp hM hN hD h200
  have herr := scanLoop_scanErr_of_no_done w.Unmarshal resp.Body.tokens resp.Body.endErr hnd
  constructor
  · intro cause hc
    rw [hres, herr, hc]
    exact ⟨rfl, rfl⟩
  · intro hc
    rw [hres, herr, hc]
    refine ⟨rfl, ?_⟩
    show (scanLoop w.Unmarshal resp.Body.tokens none [] []).fullResponse = _
    rw [scanLoop_fullResponse, upToDone_of_no_done _ hnd]

/-- Witness of C8: after `Hel` and `lo` the scanner reports `unexpected EOF`,
or simply ends. -/
theorem stream_read_fault_witness :
    (∀ f ∈ fragments sampleUnmarshal (openTokens.map Token.line), f.Done = false) ∧
    ((streamChatToOllama (sampleWorld (.ok (okResponse openTokens (some (str "unexpected EOF")))))
        (str "llama3.2:3b") []).text = [] ∧
      (streamChatToOllama (sampleWorld (.ok (okResponse openTokens (some (str "unexpected EOF")))))
        (str "llama3.2:3b") []).err = some (.stream (str "unexpected EOF"))) ∧
    ((streamChatToOllama (sampleWorld (.ok (okResponse openTokens none)))
        (str "llama3.2:3b") []).err = none ∧
      (streamChatToOllama (sampleWorld (.ok (okResponse openTokens none)))
        (str "llama3.2:3b") []).text = str "Hello") :=
  have h1 := stream_read_fault
    (sampleWorld (.ok (okResponse openTokens (some (str "unexpected EOF")))))
    (str "llama3.2:3b") [] (str "request") ⟨str "POST", ollamaChatAPI, [], str "request"⟩
    (okResponse openTokens (some (str "unexpected EOF"))) rfl rfl rfl rfl (by decide)
  have h2 := stream_read_fault (sampleWorld (.ok (okResponse openTokens none)))
    (str "llama3.2:3b") [] (str "request") ⟨str "POST", ollamaChatAPI, [], str "request"⟩
    (okResponse openTokens none) rfl rfl rfl rfl (by decide)
  ⟨by decide, h1.1 (str "unexpected EOF") rfl, (h2.2 rfl).1, (h2.2 rfl).2.trans (by decide)⟩

/-! ## Properties of `main` -/

/-- An iteration whose read fails. -/
theorem iteration_of_readErr (modelName : GoString) (t : Turn) (T : List ChatMessage)
    (err : GoString) (hread : t.readErr = some err) :
    iteration modelName t T =
      ⟨.next, T, [.Print (str "You: "), .Log (str "Error reading user input: " ++ err)]⟩ := by
  simp [iteration, hread]

/-- An iteration that reads an exit keyword. -/
theorem iteration_of_exit (modelName : GoString) (t : Turn) (T : List ChatMessage)
    (hread : t.readErr = none)
    (hkw : trimNewline t.line = str "exit" ∨ trimNewline t.line = str "quit") :
    iteration modelName t T =
      ⟨.stop, T, [.Print (str "You: "), .Print (str "\nBot: Goodbye!\n")]⟩ := by
  simp [iteration, hread, hkw]

/-- An iteration that reads a line that is not an exit keyword, when the
call fails. -/
theorem iteration_of_failure (modelName : GoString) (t : Turn) (T : List ChatMessage)
    (e : ChatError) (hread : t.readErr = none)
    (hexit : trimNewline t.line ≠ str "exit") (hquit : trimNewline t.line ≠ str "quit")
    (hfail : (streamChatToOllama t.world modelName
      (T ++ [⟨str "user", trimNewline t.line⟩])).err = some e) :
    iteration modelName t T =
      ⟨.next, T,
        [.Print (str "You: "), .Print (str "Bot: ")] ++
        (streamChatToOllama t.world modelName
          (T ++ [⟨str "user", trimNewline t.line⟩])).events ++
        [.Log (str "Error getting response from Ollama: " ++ e.Error),
         .Print (str "\nSorry, I encountered an error. Please check the console.\n")]⟩ := by
  simp [iteration, hread, hexit, hquit, hfail]

/-- An iteration that reads a line that is not an exit keyword, when the
call succeeds. -/
theorem iteration_of_success (modelName : GoString) (t : Turn) (T : List ChatMessage)
    (hread : t.readErr = none)
    (hexit : trimNewline t.line ≠ str "exit") (hquit : trimNewline t.line ≠ str "quit")
    (hok : (streamChatToOllama t.world modelName
      (T ++ [⟨str "user", trimNewline t.line⟩])).err = none) :
    iteration modelName t T =
      ⟨.next,
        T ++ [⟨str "user", trimNewline t.line⟩,
          ⟨str "assistant", (streamChatToOllama t.world modelName
            (T ++ [⟨str "user", trimNewline t.line⟩])).text⟩],
        [.Print (str "You: "), .Print (str "Bot: ")] ++
        (streamChatToOllama t.world modelName
          (T ++ [⟨str "user", trimNewline t.line⟩])).events ++
        [.Print (str "\n")]⟩ := by
  simp [iteration, hread, hexit, hquit, hok]

/-- The scan loop does not enter `streamChatToOllama`. -/
theorem scanLoop_events_no_call (U : GoString → Except GoString OllamaChatResponse)
    (toks : List Token) (endErr : Option GoString) :
    (scanLoop U toks endErr [] []).events.filter Event.isCall = [] := by
  induction toks with
  | nil => simp [scanLoop]
  | cons tok rest ih =>
    by_cases h0 : tok.line.length = 0
    · simp only [scanLoop, if_pos h0]
      exact ih
    · cases hU : U tok.line with
      | error err =>
        simp only [scanLoop, if_neg h0, hU]
        rw [scanLoop_acc]
        simp [Event.isCall, ih]
      | ok f =>
        by_cases hd : f.Done = true
        · simp [scanLoop, h0, hU, hd, Event.isCall]
        · simp only [scanLoop, if_neg h0, hU, if_neg hd]
          rw [scanLoop_acc]
          simp [Event.isCall, ih]

/-- A call of `streamChatToOllama` records one entry: its own. -/
theorem streamChatToOllama_events_call (w : World) (modelName : GoString)
    (messages : List ChatMessage) :
    (streamChatToOllama w modelName messages).events.filter Event.isCall =
      [.Call modelName messages] := by
  cases hM : w.Marshal ⟨modelName, messages, true⟩ with
  | error e => simp [streamChatToOllama, hM, Event.isCall]
  | ok jsonData =>
    cases hN : w.NewRequest (str "POST") ollamaChatAPI jsonData with
    | error e => simp [streamChatToOllama, hM, hN, Event.isCall]
    | ok req =>
      cases hD : w.Do { req with
        Header := headerSet req.Header (str "Content-Type") (str "application/json") } with
      | error e => simp [streamChatToOllama, hM, hN, hD, Event.isCall]
      | ok resp =>
        by_cases h200 : resp.StatusCode = 200
        · rw [streamChatToOllama_of_200 w modelName messages jsonData req resp hM hN hD h200]
          simp [Event.isCall, scanLoop_events_no_call]
        · simp [streamChatToOllama, hM, hN, hD, h200, Event.isCall]

/-- C1. Rollback: from any transcript `T` (the empty one included), an
iteration that reads a line that is not an exit keyword and whose call of
`streamChatToOllama` returns an error, whichever it is, leaves the transcript
exactly `T`, so of the same length, and the loop goes on. -/
theorem failed_turn_rolls_back (modelName : GoString) (t : Turn) (T : List ChatMessage)
    (e : ChatError) (hread : t.readErr = none)
    (hexit : trimNewline t.line ≠ str "exit") (hquit : trimNewline t.line ≠ str "quit")
    (hfail : (streamChatToOllama t.world modelName
      (T ++ [⟨str "user", trimNewline t.line⟩])).err = some e) :
    (iteration modelName t T).conversationHistory = T ∧
    (iteration modelName t T).conversationHistory.length = T.length ∧
    (iteration modelName t T).flow = .next := by
  rw [iteration_of_failure modelName t T e hread hexit hquit hfail]
  exact ⟨rfl, rfl, rfl⟩

/-- Witness of C1: the first turn fails to send its request; the transcript
is empty again. The same holds for a failure of each other kind. -/
theorem failed_turn_rolls_back_witness :
    (streamChatToOllama (sampleWorld (.error (str "connection refused"))) (str "llama3.2:3b")
      ([] ++ [⟨str "user", trimNewline (str "hi\n")⟩])).err =
        some (.send (str "connection refused")) ∧
    (iteration (str "llama3.2:3b")
      ⟨str "hi\n", none, sampleWorld (.error (str "connection refused"))⟩
      []).conversationHistory.length = 0 ∧
    (iteration (str "llama3.2:3b") ⟨str "hi\n", none, sampleWorld (.ok notFoundResponse)⟩
      []).conversationHistory.length = 0 ∧
    (iteration (str "llama3.2:3b")
      ⟨str "hi\n", none, sampleWorld (.ok (okResponse openTokens (some (str "unexpected EOF"))))⟩
      []).conversationHistory.length = 0 :=
  ⟨by decide,
    (failed_turn_rolls_back (str "llama3.2:3b")
      ⟨str "hi\n", none, sampleWorld (.error (str "connection refused"))⟩ []
      (.send (str "connection refused")) rfl (by decide) (by decide) (by decide)).2.1,
    by decide, by decide⟩

/-- C6. Exit keywords: when the line read is `exit` or `quit` followed by
`\n` or by `\r\n`, the iteration leaves the loop with the transcript
unchanged, having only printed the prompt and the farewell: the function
`streamChatToOllama` is not entered and no request is issued; the inputs of
later iterations are not consumed. -/
theorem exit_keywords_stop_the_loop (modelName : GoString) (t : Turn) (T : List ChatMessage)
    (hread : t.readErr = none)
    (hline : t.line = str "exit\n" ∨ t.line = str "quit\n" ∨
      t.line = str "exit\r\n" ∨ t.line = str "quit\r\n") :
    iteration modelName t T =
      ⟨.stop, T, [.Print (str "You: "), .Print (str "\nBot: Goodbye!\n")]⟩ ∧
    ∀ (ts : List Turn) (events : List Event),
      loop modelName (t :: ts) T events =
        ⟨T, events ++ [.Print (str "You: "), .Print (str "\nBot: Goodbye!\n")], true⟩ := by
  have hkw : trimNewline t.line = str "exit" ∨ trimNewline t.line = str "quit" := by
    rcases hline with h | h | h | h <;> rw [h]
    · exact Or.inl (by decide)
    · exact Or.inr (by decide)
    · exact Or.inl (by decide)
    · exact Or.inr (by decide)
  have hit := iteration_of_exit modelName t T hread hkw
  refine ⟨hit, ?_⟩
  intro ts events
  simp [loop, hit]

/-- Witness of C6 at the line `quit` followed by `\r\n`. -/
theorem exit_keywords_stop_the_loop_witness :
    iteration (str "llama3.2:3b")
        ⟨str "quit\r\n", none, sampleWorld (.ok (okResponse helloTokens none))⟩
        [⟨str "user", str "hi"⟩, ⟨str "assistant", str "Hello"⟩] =
      ⟨.stop, [⟨str "user", str "hi"⟩, ⟨str "assistant", str "Hello"⟩],
        [.Print (str "You: "), .Print (str "\nBot: Goodbye!\n")]⟩ :=
  (exit_keywords_stop_the_loop (str "llama3.2:3b")
    ⟨str "quit\r\n", none, sampleWorld (.ok (okResponse helloTokens none))⟩
    [⟨str "user", str "hi"⟩, ⟨str "assistant", str "Hello"⟩] rfl
    (Or.inr (Or.inr (Or.inr rfl)))).1

/-- C9. Exit matching is exact: when the line read, trimmed by `trimNewline`,
is neither `exit` nor `quit`, the iteration does not leave the loop; it
enters `streamChatToOllama` exactly once, with the model name and the
transcript extended by the one message of role `user` holding the trimmed
input; afterwards the transcript is that one with the reply appended, or the
former transcript if the call failed. -/
theorem non_exit_input_is_sent (modelName : GoString) (t : Turn) (T : List ChatMessage)
    (hread : t.readErr = none)
    (hexit : trimNewline t.line ≠ str "exit") (hquit : trimNewline t.line ≠ str "quit") :
    (iteration modelName t T).flow = .next ∧
    (iteration modelName t T).events.filter Event.isCall =
      [.Call modelName (T ++ [⟨str "user", trimNewline t.line⟩])] ∧
    (iteration modelName t T).conversationHistory =
      (match (streamChatToOllama t.world modelName
          (T ++ [⟨str "user", trimNewline t.line⟩])).err with
        | none =>
          T ++ [⟨str "user", trimNewline t.line⟩] ++
            [⟨str "assistant", (streamChatToOllama t.world modelName
              (T ++ [⟨str "user", trimNewline t.line⟩])).text⟩]
        | some _ => T) ∧
    ∀ (ts : List Turn) (events : List Event),
      loop modelName (t :: ts) T events =
        loop modelName ts (iteration modelName t T).conversationHistory
          (events ++ (iteration modelName t T).events) := by
  have hcall := streamChatToOllama_events_call t.world modelName
    (T ++ [⟨str "user", trimNewline t.line⟩])
  have hflow : (iteration modelName t T).flow = .next ∧
      (iteration modelName t T).events.filter Event.isCall =
        [.Call modelName (T ++ [⟨str "user", trimNewline t.line⟩])] ∧
      (iteration modelName t T).conversationHistory =
        (match (streamChatToOllama t.world modelName
            (T ++ [⟨str "user", trimNewline t.line⟩])).err with
          | none =>
            T ++ [⟨str "user", trimNewline t.line⟩] ++
              [⟨str "assistant", (streamChatToOllama t.world modelName
                (T ++ [⟨str "user", trimNewline t.line⟩])).text⟩]
          | some _ => T) := by
    cases h : (streamChatToOllama t.world modelName
        (T ++ [⟨str "user", trimNewline t.line⟩])).err with
    | none =>
      rw [iteration_of_success modelName t T hread hexit hquit h]
      simp [hcall, Event.isCall]
    | some e =>
      rw [iteration_of_failure modelName t T e hread hexit hquit h]
      simp [hcall, Event.isCall]
  refine ⟨hflow.1, hflow.2.1, hflow.2.2, ?_⟩
  intro ts events
  simp [loop, hflow.1]

/-- Witness of C9 at the line `Exit`; the lines `QUIT`, ` exit`, `exit ` and
the empty line are no exit keywords either. -/
theorem non_exit_input_is_sent_witness :
    (trimNewline (str "Exit\n") ≠ str "exit" ∧ trimNewline (str "Exit\n") ≠ str "quit") ∧
    (trimNewline (str "QUIT\n") ≠ str "exit" ∧ trimNewline (str "QUIT\n") ≠ str "quit") ∧
    (trimNewline (str " exit\n") ≠ str "exit" ∧ trimNewline (str " exit\n") ≠ str "quit") ∧
    (trimNewline (str "exit \n") ≠ str "exit" ∧ trimNewline (str "exit \n") ≠ str "quit") ∧
    (trimNewline (str "\n") ≠ str "exit" ∧ trimNewline (str "\n") ≠ str "quit") ∧
    (iteration (str "llama3.2:3b")
      ⟨str "Exit\n", none, sampleWorld (.ok (okResponse helloTokens none))⟩ []).flow = .next ∧
    (iteration (str "llama3.2:3b")
      ⟨str "Exit\n", none, sampleWorld (.ok (okResponse helloTokens none))⟩ []).events.filter
        Event.isCall = [.Call (str "llama3.2:3b") [⟨str "user", str "Exit"⟩]] ∧
    (iteration (str "llama3.2:3b")
      ⟨str "Exit\n", none, sampleWorld (.ok (okResponse helloTokens none))⟩
      []).conversationHistory = [⟨str "user", str "Exit"⟩, ⟨str "assistant", str "Hello"⟩] :=
  have h := non_exit_input_is_sent (str "llama3.2:3b")
    ⟨str "Exit\n", none, sampleWorld (.ok (okResponse helloTokens none))⟩ [] rfl
    (by decide) (by decide)
  ⟨by decide, by decide, by decide, by decide, by decide, h.1, h.2.1.trans (by decide),
    h.2.2.1.trans (by decide)⟩

/-- What an iteration does to the transcript: a successful turn appends a
`user` and an `assistant` message, every other iteration leaves it as it
was. -/
theorem iteration_conversationHistory (modelName : GoString) (t : Turn)
    (T : List ChatMessage) :
    (turnSucceeds modelName t T = true ∧ (iteration modelName t T).flow = .next ∧
      ∃ content reply, (iteration modelName t T).conversationHistory =
        T ++ [⟨str "user", content⟩, ⟨str "assistant", reply⟩]) ∨
    (turnSucceeds modelName t T = false ∧ (iteration modelName t T).conversationHistory = T) := by
  cases hread : t.readErr with
  | some err =>
    right
    rw [iteration_of_readErr modelName t T err hread]
    simp [turnSucceeds, hread]
  | none =>
    by_cases hkw : trimNewline t.line = str "exit" ∨ trimNewline t.line = str "quit"
    · right
      rw [iteration_of_exit modelName t T hread hkw]
      refine ⟨?_, rfl⟩
      rcases hkw with h | h <;> simp [turnSucceeds, h]
    · have hexit : trimNewline t.line ≠ str "exit" := fun h => hkw (Or.inl h)
      have hquit : trimNewline t.line ≠ str "quit" := fun h => hkw (Or.inr h)
      cases h : (streamChatToOllama t.world modelName
          (T ++ [⟨str "user", trimNewline t.line⟩])).err with
      | none =>
        left
        rw [iteration_of_success modelName t T hread hexit hquit h]
        exact ⟨by simp [turnSucceeds, hread, hexit, hquit, h], rfl, _, _, rfl⟩
      | some e =>
        right
        rw [iteration_of_failure modelName t T e hread hexit hquit h]
        exact ⟨by simp [turnSucceeds, hread, h], rfl⟩

/-- The transcript after the loop has run on some inputs: the transcript
it started from, followed by a `user` and an `assistant` message for each
successful turn. -/
theorem loop_conversationHistory (modelName : GoString) (turns : List Turn)
    (T : List ChatMessage) (events : List Event) :
    ∃ tail, (loop modelName turns T events).conversationHistory = T ++ tail ∧
      tail.map ChatMessage.Role =
        (List.replicate (successes modelName turns T) [str "user", str "assistant"]).flatten := by
  induction turns generalizing T events with
  | nil => exact ⟨[], by simp [loop], by simp [successes]⟩
  | cons t ts ih =>
    rcases iteration_conversationHistory modelName t T with
      ⟨hs, hflow, content, reply, hh⟩ | ⟨hs, hh⟩
    · obtain ⟨tail, ht, hr⟩ := ih (T ++ [⟨str "user", content⟩, ⟨str "assistant", reply⟩])
        (events ++ (iteration modelName t T).events)
      refine ⟨[⟨str "user", content⟩, ⟨str "assistant", reply⟩] ++ tail, ?_, ?_⟩
      · simp only [loop, hflow, hh]
        rw [ht, List.append_assoc]
      · simp only [successes, hflow, hs, hh, if_true]
        rw [Nat.add_comm, List.replicate_succ, List.flatten_cons, List.map_append, hr]
        rfl
    · cases hflow : (iteration modelName t T).flow with
      | stop =>
        refine ⟨[], ?_, ?_⟩
        · simp [loop, hflow, hh]
        · simp [successes, hflow]
      | next =>
        obtain ⟨tail, ht, hr⟩ := ih T (events ++ (iteration modelName t T).events)
        refine ⟨tail, ?_, ?_⟩
        · simp only [loop, hflow, hh]
          exact ht
        · simp only [successes, hflow, hs, hh]
          simpa using hr

/-- In the roles of `n` successful turns, even positions hold `user` and odd
positions hold `assistant`. -/
theorem roles_getElem? (n i : Nat) (role : GoString)
    (h : (List.replicate n [str "user", str "assistant"]).flatten[i]? = some role) :
    role = if i % 2 = 0 then str "user" else str "assistant" := by
  induction n generalizing i with
  | zero => simp at h
  | succ n ih =>
    rw [List.replicate_succ, List.flatten_cons] at h
    match i, h with
    | 0, h => simpa using h.symm
    | 1, h => simpa using h.symm
    | k + 2, h =>
      have hk : (List.replicate n [str "user", str "assistant"]).flatten[k]? = some role := by
        simpa using h
      have := ih k hk
      rw [this]
      have hmod : (k + 2) % 2 = k % 2 := by omega
      rw [hmod]

/-- C2. Transcript invariant: started from the empty transcript, after any
finite sequence of iterations (successful turns, failed turns, failed reads,
in any order) the transcript has length `2 * N`, where `N` is the number of
successful turns so far, and its roles alternate, starting with `user`: every
even position holds `user`, every odd position `assistant`. -/
theorem transcript_invariant (modelName : GoString) (turns : List Turn) :
    (main modelName turns).conversationHistory.length = 2 * successes modelName turns [] ∧
    (main modelName turns).conversationHistory.map ChatMessage.Role =
      (List.replicate (successes modelName turns []) [str "user", str "assistant"]).flatten ∧
    ∀ (i : Nat) (m : ChatMessage), (main modelName turns).conversationHistory[i]? = some m →
      m.Role = if i % 2 = 0 then str "user" else str "assistant" := by
  obtain ⟨tail, ht, hr⟩ := loop_conversationHistory modelName turns []
    [.Print (str "------------------------------------------------------------------\n"),
     .Print (str "Starting chatbot with model: " ++ modelName ++
       str ". Type \x27exit\x27 or \x27quit\x27 to end.\n"),
     .Print (str "------------------------------------------------------------------\n")]
  have hmain : (main modelName turns).conversationHistory = tail := by
    rw [← List.nil_append tail, ← ht]
    rfl
  rw [hmain]
  refine ⟨?_, hr, ?_⟩
  · have hlen := congrArg List.length hr
    rw [List.length_map] at hlen
    rw [hlen]
    simp [Nat.mul_comm]
  · intro i m hm
    apply roles_getElem? (successes modelName turns []) i m.Role
    rw [← hr, List.getElem?_map, hm]
    rfl

/-- Witness of C2: a failed turn, a failed read, a successful turn and
`quit`; one successful turn, a transcript of two messages. -/
theorem transcript_invariant_witness :
    successes (str "llama3.2:3b") sampleTurns [] = 1 ∧
    (main (str "llama3.2:3b") sampleTurns).conversationHistory =
      [⟨str "user", str "hi again"⟩, ⟨str "assistant", str "Hello"⟩] ∧
    (main (str "llama3.2:3b") sampleTurns).conversationHistory.length =
      2 * successes (str "llama3.2:3b") sampleTurns [] ∧
    (⟨str "assistant", str "Hello"⟩ : ChatMessage).Role =
      if 1 % 2 = 0 then str "user" else str "assistant" :=
  ⟨by decide, by decide, (transcript_invariant (str "llama3.2:3b") sampleTurns).1,
    (transcript_invariant (str "llama3.2:3b") sampleTurns).2.2 1
      ⟨str "assistant", str "Hello"⟩ (by decide)⟩

end Gollama
